import Mathlib

/-!
# Farm-bid: open-contract negotiation and payout requests

A shallow embedding of `controllers/contractController.js` (the handlers
`createOpenContract`, `fulfillOpenContract`, `acceptFulfillment` and their helpers)
and of `requestPayout` in `controllers/payController.js`.

Conventions of the embedding:

* the Mongo collections are fields of a `Db` value that every handler takes and
  returns; `findById` is function application on the collection;
* a JavaScript `Number` is an exact rational (`ℚ`) in the contract controller, which
  only compares quantities and prices, and a `Float` (IEEE binary64) in the pay
  controller, which multiplies, subtracts and rounds amounts;
* a property read on a fetched document gives what the schema under `models/`
  declares: `src/models/User.js` declares neither `phone` nor `stripeAccountId`, so
  these reads are undefined;
* `new Date()` and the fresh `ObjectId` that Mongoose gives a new document or
  sub-document are arguments of the handler;
* an HTTP answer is a `Reply`: the status code with either the JSON document or the
  `message` text the handler sends;
* text bodies of notifications carry no state and are left out, and so are the
  Twilio SMS calls, which are guarded by the undefined `phone`.
-/

namespace FarmBid

abbrev ObjectId := Nat

/-! ## Documents -/

inductive Role where
  | farmer
  | buyer
  deriving DecidableEq, Repr

structure Product where
  name : String
  deriving DecidableEq, Repr

/-- A `User` document, with the paths declared by `src/models/User.js` that the two
controllers read; the other declared paths (password, location, socialMedia,
description, partners, wholesaleAvailable) are read nowhere. -/
structure User where
  _id : ObjectId
  email : String
  role : Role
  products : List Product
  deriving DecidableEq, Repr

/-- The read `user.stripeAccountId` on a fetched document: `src/models/User.js`
declares no such path, so the property is undefined for every user. -/
def User.stripeAccountId (_ : User) : Option String := none

/-- What `toString()` gives: for an identifier its hexadecimal digits, for a whole
document its inspected text, which is never the text of an identifier. -/
inductive JsText where
  | ofId (id : ObjectId)
  | ofDocument (doc : User)
  deriving DecidableEq

structure Notification where
  user : ObjectId
  type : String
  deriving DecidableEq, Repr

/-- Modelled from the spec: the `status` enumeration of the `OpenContract` schema
(`models/OpenContract.js` is not among the sources); the controller writes
`'open'`, `'pending_fulfillment'` and `'fulfilled'`. -/
inductive ContractStatus where
  | open
  | pending_fulfillment
  | fulfilled
  | expired
  | cancelled
  deriving DecidableEq, Repr

/-- Modelled from the spec: the `status` enumeration of a fulfillment sub-document
(`models/OpenContract.js` is not among the sources); the controller writes
`'pending'` and `'accepted'`. -/
inductive FulfillmentStatus where
  | pending
  | accepted
  | rejected
  deriving DecidableEq, Repr

/-- A fulfillment sub-document, with the fields `fulfillOpenContract` pushes. -/
structure Fulfillment where
  _id : ObjectId
  farmer : ObjectId
  quantity : ℚ
  price : ℚ
  status : FulfillmentStatus
  deriving DecidableEq

/-- The `winningFulfillment` field, with the fields `acceptFulfillment` writes. -/
structure WinningFulfillment where
  farmer : ObjectId
  quantity : ℚ
  price : ℚ
  acceptedAt : Nat
  deriving DecidableEq

/-- An `OpenContract` document, with the fields `createOpenContract` sets and
`winningFulfillment`; the identifier is the key under which the document is stored. -/
structure OpenContract where
  buyer : ObjectId
  productType : String
  productCategory : String
  quantity : ℚ
  maxPrice : ℚ
  endTime : Nat
  status : ContractStatus
  fulfillments : List Fulfillment
  winningFulfillment : Option WinningFulfillment
  notifiedFarmers : List ObjectId
  deriving DecidableEq

/-- Modelled from the spec: the `payoutStatus` enumeration of the `Transaction`
schema (`models/Transaction.js` is not among the sources); the controller reads and
writes `'completed'`. -/
inductive PayoutStatus where
  | pending
  | completed
  | failed
  deriving DecidableEq, Repr

/-- A `Transaction` document, with the fields `requestPayout` reads and writes. -/
structure Transaction where
  buyer : ObjectId
  seller : ObjectId
  amount : Float
  payoutStatus : PayoutStatus
  payout : Option ObjectId

/-- A `Payout` record as `requestPayout` builds it; the two `metadata` entries are
kept as the numbers whose text the code stores. -/
structure Payout where
  _id : ObjectId
  userId : ObjectId
  transaction : ObjectId
  amount : Float
  stripePayoutId : String
  status : String
  platformFee : Float
  originalAmount : Float

/-- A payout created at the payment processor by `stripe.payouts.create`: the amount
in cents, the connected account and the transaction named in the metadata. -/
structure StripePayout where
  amount : Float
  currency : String
  method : String
  transactionId : ObjectId
  stripeAccount : String

/-- What `stripe.payouts.create` answers: the created payout, or a thrown error. -/
inductive StripeResult where
  | created (id : String) (status : String) (arrival_date : Nat)
  | failed (errType : String) (errMessage : String)
  deriving DecidableEq

/-- The collections the handlers read and write, and the payouts created at the
payment processor. -/
structure Db where
  users : List User
  contracts : ObjectId → Option OpenContract
  notifications : List Notification
  transactions : ObjectId → Option Transaction
  payouts : List Payout
  stripePayouts : List StripePayout

/-- An HTTP answer: `res.status(s).json(doc)` or `res.status(s).json({ message })`. -/
inductive Reply (α : Type) where
  | json (status : Nat) (body : α)
  | message (status : Nat) (text : String)
  deriving DecidableEq

def Reply.status {α : Type} : Reply α → Nat
  | .json s _ => s
  | .message s _ => s

/-! ## Collection helpers -/

def Db.findUser (db : Db) (id : ObjectId) : Option User :=
  db.users.find? (fun u => u._id == id)

def Db.saveContract (db : Db) (id : ObjectId) (c : OpenContract) : Db :=
  { db with contracts := fun i => if i = id then some c else db.contracts i }

def Db.saveTransaction (db : Db) (id : ObjectId) (t : Transaction) : Db :=
  { db with transactions := fun i => if i = id then some t else db.transactions i }

/-- The helper `createNotification`: stores one in-app notification. -/
def createNotification (db : Db) (userId : ObjectId) (type : String) : Db :=
  { db with notifications := db.notifications ++ [{ user := userId, type := type }] }

/-! ## contractController.js -/

/-- Modelled from the spec: the schema method `canBeFulfilled` of `OpenContract`
(`models/OpenContract.js` is not among the sources). The spec refuses an offer when
the contract state is not Open or PendingFulfillment or when `endTime` has passed. -/
def canBeFulfilled (c : OpenContract) (now : Nat) : Bool :=
  (c.status == .open || c.status == .pending_fulfillment) && decide (now < c.endTime)

/-- The loop of `notifyRelevantFarmers`: every matching farmer not yet in
`notifiedFarmers` gets a notification and is pushed onto the list. -/
def notifyLoop : List User → Db → OpenContract → Db × OpenContract
  | [], db, c => (db, c)
  | farmer :: rest, db, c =>
    if farmer._id ∈ c.notifiedFarmers then notifyLoop rest db c
    else
      notifyLoop rest (createNotification db farmer._id "contract")
        { c with notifiedFarmers := c.notifiedFarmers ++ [farmer._id] }

/-- The helper `notifyRelevantFarmers`: the farmers whose products include the
contract's product type are notified, then the contract is saved. -/
def notifyRelevantFarmers (db : Db) (contractId : ObjectId) (contract : OpenContract) :
    Db × OpenContract :=
  let relevantFarmers := db.users.filter
    (fun u => u.role == .farmer && u.products.any (fun p => p.name == contract.productType))
  let r := notifyLoop relevantFarmers db contract
  (r.1.saveContract contractId r.2, r.2)

/-- The request body of `createOpenContract`. -/
structure ContractBody where
  productType : String
  productCategory : String
  quantity : ℚ
  maxPrice : ℚ
  endTime : Nat

/-- The handler `createOpenContract`; `newId` is the identifier of the new document. -/
def createOpenContract (db : Db) (reqUser : ObjectId) (newId : ObjectId)
    (body : ContractBody) : Db × Reply OpenContract :=
  let newContract : OpenContract :=
    { buyer := reqUser
      productType := body.productType
      productCategory := body.productCategory
      quantity := body.quantity
      maxPrice := body.maxPrice
      endTime := body.endTime
      status := .open
      fulfillments := []
      winningFulfillment := none
      notifiedFarmers := [] }
  let db1 := db.saveContract newId newContract
  let r := notifyRelevantFarmers db1 newId newContract
  (r.1, .json 201 r.2)

/-- The handler `fulfillOpenContract`; `newId` is the identifier Mongoose gives the
pushed sub-document. -/
def fulfillOpenContract (db : Db) (reqUser : ObjectId) (contractId : ObjectId)
    (newId : ObjectId) (quantity price : ℚ) (now : Nat) : Db × Reply OpenContract :=
  match db.contracts contractId with
  | none => (db, .message 404 "Open contract not found")
  | some contract =>
    if !canBeFulfilled contract now then
      (db, .message 400 "This contract has expired or is no longer open for fulfillment.")
    else if price > contract.maxPrice then
      (db, .message 400 "Offered price exceeds the maximum price set by the buyer.")
    else if quantity > contract.quantity then
      (db, .message 400 "Offered quantity exceeds the required quantity.")
    else
      match db.findUser contract.buyer, db.findUser reqUser with
      | some buyer, some farmer =>
        let contract1 : OpenContract :=
          { contract with
            fulfillments := contract.fulfillments ++
              [{ _id := newId, farmer := farmer._id, quantity := quantity, price := price,
                 status := .pending }]
            status := .pending_fulfillment }
        let db1 := db.saveContract contractId contract1
        (createNotification db1 buyer._id "fulfillment", .json 200 contract1)
      | _, _ => (db, .message 404 "Buyer or Farmer not found.")

/-- The sub-document lookup `contract.fulfillments.id(fulfillmentId)`. -/
def fulfillmentById (fs : List Fulfillment) (fulfillmentId : ObjectId) : Option Fulfillment :=
  fs.find? (fun f => f._id == fulfillmentId)

/-- The in-place write `fulfillment.status = 'accepted'` on the sub-document that
`fulfillmentById` returned (the first one with that identifier). -/
def markAccepted (fulfillmentId : ObjectId) : List Fulfillment → List Fulfillment
  | [] => []
  | f :: fs =>
    if f._id == fulfillmentId then { f with status := .accepted } :: fs
    else f :: markAccepted fulfillmentId fs

/-- The handler `acceptFulfillment`. -/
def acceptFulfillment (db : Db) (reqUser : ObjectId) (contractId fulfillmentId : ObjectId)
    (now : Nat) : Db × Reply OpenContract :=
  match db.contracts contractId with
  | none => (db, .message 404 "Contract not found")
  | some contract =>
    if contract.buyer ≠ reqUser then
      (db, .message 403 "Not authorized to accept fulfillments for this contract")
    else
      match fulfillmentById contract.fulfillments fulfillmentId with
      | none => (db, .message 404 "Fulfillment offer not found")
      | some fulfillment =>
        let contract1 : OpenContract :=
          { contract with
            fulfillments := markAccepted fulfillmentId contract.fulfillments
            winningFulfillment := some
              { farmer := fulfillment.farmer, quantity := fulfillment.quantity,
                price := fulfillment.price, acceptedAt := now }
            status := .fulfilled }
        let db1 := db.saveContract contractId contract1
        match db1.findUser fulfillment.farmer with
        | some farmer => (createNotification db1 farmer._id "fulfillment", .json 200 contract1)
        | none => (db1, .json 200 contract1)

/-! ## payController.js -/

/-- The body of the successful answer of `requestPayout`. -/
structure PayoutReceipt where
  id : String
  amount : Float
  status : String
  expectedArrival : Nat
  transaction : ObjectId

/-- The function `Math.round`: the nearest integer, a half going up. -/
def mathRound (x : Float) : Float :=
  if x - Float.floor x < 0.5 then Float.floor x else Float.floor x + 1

/-- The message of the `TypeError` that `transaction.seller.toString()` throws when
`populate` found no user for the seller and left `null`. -/
def nullSellerMessage : String := "Cannot read properties of null (reading \x27toString\x27)"

/-- The handler `requestPayout`; `stripe` is what the payment processor answers to
`stripe.payouts.create` and `newId` the identifier of the new `Payout` record. The
test `!user.stripeAccountId` holds for an undefined and for an empty account
identifier; `populate('seller')` replaces the seller's identifier by the user document
(or `null`), so that `transaction.seller.toString() !== user._id.toString()` compares
the text of a document with the text of an identifier; an exception is answered 400
with its message by the `catch` block. -/
def requestPayout (db : Db) (reqUser : ObjectId) (transactionId : ObjectId)
    (stripe : StripeResult) (newId : ObjectId) : Db × Reply PayoutReceipt :=
  match db.findUser reqUser with
  | none => (db, .message 400 "No connected account found for this user")
  | some user =>
    match user.stripeAccountId with
    | none => (db, .message 400 "No connected account found for this user")
    | some stripeAccountId =>
      if stripeAccountId = "" then
        (db, .message 400 "No connected account found for this user")
      else
        match db.transactions transactionId with
        | none => (db, .message 404 "Transaction not found")
        | some transaction =>
          match db.findUser transaction.seller with
          | none => (db, .message 400 nullSellerMessage)
          | some seller =>
            if JsText.ofDocument seller ≠ JsText.ofId user._id then
              (db, .message 403 "Not authorized to request payout for this transaction")
            else if transaction.payoutStatus = .completed then
              (db, .message 400 "Payout has already been processed for this transaction")
            else
              let platformFee := transaction.amount * 0.05
              let payoutAmount := transaction.amount - platformFee
              match stripe with
              | .failed errType errMessage =>
                (db, .message 400
                  (if errType = "StripeInvalidRequestError"
                   then "Unable to process payout. Please verify bank account details."
                   else errMessage))
              | .created id status arrival_date =>
                let issued : StripePayout :=
                  { amount := mathRound (payoutAmount * 100)
                    currency := "usd"
                    method := "instant"
                    transactionId := transactionId
                    stripeAccount := stripeAccountId }
                let newPayout : Payout :=
                  { _id := newId
                    userId := user._id
                    transaction := transactionId
                    amount := payoutAmount
                    stripePayoutId := id
                    status := status
                    platformFee := platformFee
                    originalAmount := transaction.amount }
                let transaction1 : Transaction :=
                  { transaction with payoutStatus := .completed, payout := some newId }
                let db1 : Db :=
                  { db with
                    stripePayouts := db.stripePayouts ++ [issued]
                    payouts := db.payouts ++ [newPayout] }
                (db1.saveTransaction transactionId transaction1,
                 .json 200
                   { id := id, amount := payoutAmount, status := status,
                     expectedArrival := arrival_date, transaction := transactionId })

/-! ## Reachable stores -/

/-- The stores reachable from one without contracts by calls of `createOpenContract`,
`fulfillOpenContract` and `acceptFulfillment`, with any caller, identifiers, values
and clock. -/
inductive Reachable : Db → Prop where
  | init (db : Db) (h : ∀ i, db.contracts i = none) : Reachable db
  | create {db : Db} (reqUser newId : ObjectId) (body : ContractBody) :
      Reachable db → Reachable (createOpenContract db reqUser newId body).1
  | fulfill {db : Db} (reqUser contractId newId : ObjectId) (quantity price : ℚ) (now : Nat) :
      Reachable db →
        Reachable (fulfillOpenContract db reqUser contractId newId quantity price now).1
  | accept {db : Db} (reqUser contractId fulfillmentId : ObjectId) (now : Nat) :
      Reachable db → Reachable (acceptFulfillment db reqUser contractId fulfillmentId now).1

/-- On a stored contract: the winning fulfillment is set exactly when the state is
fulfilled, it carries the farmer, quantity and price of some accepted offer, and an
accepted offer exists only on a fulfilled contract. -/
def WinnerInv (c : OpenContract) : Prop :=
  (c.winningFulfillment.isSome = true ↔ c.status = .fulfilled) ∧
    (∀ w, c.winningFulfillment = some w →
      ∃ f ∈ c.fulfillments, f.status = .accepted ∧ f.farmer = w.farmer ∧
        f.quantity = w.quantity ∧ f.price = w.price) ∧
    ((∃ f ∈ c.fulfillments, f.status = .accepted) → c.status = .fulfilled)

/-- One `fulfillOpenContract` request on a given contract: the caller, the identifier
of the new sub-document, the offered values and the clock. -/
structure OfferCall where
  reqUser : ObjectId
  newId : ObjectId
  quantity : ℚ
  price : ℚ
  now : Nat

/-- The sub-document a successful request pushes. -/
def OfferCall.pending (k : OfferCall) : Fulfillment :=
  { _id := k.newId, farmer := k.reqUser, quantity := k.quantity, price := k.price,
    status := .pending }

/-- The requests of the list are made one after the other on the contract
`contractId`; the result is the final store when every one of them is answered 200. -/
def submitOffers (contractId : ObjectId) : Db → List OfferCall → Option Db
  | db, [] => some db
  | db, k :: ks =>
    if (fulfillOpenContract db k.reqUser contractId k.newId k.quantity k.price k.now).2.status
        = 200 then
      submitOffers contractId
        (fulfillOpenContract db k.reqUser contractId k.newId k.quantity k.price k.now).1 ks
    else none

/-- One `requestPayout` request: the caller, the transaction, the answer of the
payment processor and the identifier of the `Payout` record. -/
structure PayoutCall where
  reqUser : ObjectId
  transactionId : ObjectId
  stripe : StripeResult
  newId : ObjectId

/-- The requests of the list are made one after the other. -/
def runPayouts : Db → List PayoutCall → Db
  | db, [] => db
  | db, k :: ks =>
    runPayouts (requestPayout db k.reqUser k.transactionId k.stripe k.newId).1 ks

/-- The number of `Payout` records of a transaction. -/
def payoutsFor (db : Db) (transactionId : ObjectId) : Nat :=
  (db.payouts.filter (fun p => p.transaction == transactionId)).length

/-- The number of payouts created at the payment processor for a transaction. -/
def issuedFor (db : Db) (transactionId : ObjectId) : Nat :=
  (db.stripePayouts.filter (fun p => p.transactionId == transactionId)).length

/-! ## A worked negotiation

A buyer posts a contract for 100 units of tomatoes at a ceiling of 10.00; farmer A
offers (80, 9.50) and farmer B offers (50, 9.00); the buyer accepts A's offer and
then B's. -/

def buyerUser : User :=
  { _id := 1, email := "buyer@example.org", role := .buyer, products := [] }

def farmerA : User :=
  { _id := 2, email := "a@example.org", role := .farmer,
    products := [{ name := "tomatoes" }] }

def farmerB : User :=
  { _id := 3, email := "b@example.org", role := .farmer, products := [] }

def emptyDb : Db :=
  { users := [buyerUser, farmerA, farmerB]
    contracts := fun _ => none
    notifications := []
    transactions := fun _ => none
    payouts := []
    stripePayouts := [] }

def tomatoBody : ContractBody :=
  { productType := "tomatoes", productCategory := "vegetables", quantity := 100,
    maxPrice := 10, endTime := 1000 }

/-- The contract 10 is posted by the buyer. -/
def dbPosted : Db := (createOpenContract emptyDb 1 10 tomatoBody).1

/-- Farmer A offers 80 units at 9.50 (sub-document 20). -/
def dbOfferA : Db := (fulfillOpenContract dbPosted 2 10 20 80 (19 / 2) 5).1

/-- Farmer B offers 50 units at 9.00 (sub-document 21). -/
def dbOfferB : Db := (fulfillOpenContract dbOfferA 3 10 21 50 9 6).1

/-- The buyer accepts the offer of farmer A. -/
def dbAcceptedA : Db := (acceptFulfillment dbOfferB 1 10 20 7).1

/-- The buyer then accepts the offer of farmer B. -/
def dbAcceptedB : Db := (acceptFulfillment dbAcceptedA 1 10 21 8).1

/-- The offer of farmer A as stored. -/
def offerA : Fulfillment :=
  { _id := 20, farmer := 2, quantity := 80, price := 19 / 2, status := .pending }

/-- The offer of farmer B as stored. -/
def offerB : Fulfillment :=
  { _id := 21, farmer := 3, quantity := 50, price := 9, status := .pending }

/-- The contract 10 as posted. -/
def contractPosted : OpenContract :=
  { buyer := 1, productType := "tomatoes", productCategory := "vegetables", quantity := 100,
    maxPrice := 10, endTime := 1000, status := .open,
    fulfillments := [], winningFulfillment := none, notifiedFarmers := [2] }

/-- The contract 10 once both offers are in. -/
def contractOfferB : OpenContract :=
  { buyer := 1, productType := "tomatoes", productCategory := "vegetables", quantity := 100,
    maxPrice := 10, endTime := 1000, status := .pending_fulfillment,
    fulfillments := [offerA, offerB], winningFulfillment := none, notifiedFarmers := [2] }

/-- The contract 10 once the offer of farmer A is accepted. -/
def contractAcceptedA : OpenContract :=
  { contractOfferB with
    status := .fulfilled
    fulfillments := [{ offerA with status := .accepted }, offerB]
    winningFulfillment := some { farmer := 2, quantity := 80, price := 19 / 2, acceptedAt := 7 } }

/-! ## Two transactions to pay out

Farmer A sold for 33.33 (transaction 50) and for 100.00 (transaction 51); neither is
paid out yet. -/

/-- The sale of 33.33. -/
def sale3333 : Transaction :=
  { buyer := 1, seller := 2, amount := 33.33, payoutStatus := .pending, payout := none }

/-- The sale of 100.00. -/
def sale100 : Transaction :=
  { buyer := 1, seller := 2, amount := 100, payoutStatus := .pending, payout := none }

def payDb : Db :=
  { emptyDb with
    transactions := fun i =>
      if i = 50 then some sale3333 else if i = 51 then some sale100 else none }

/-! ## Sub-document lemmas -/

theorem fulfillmentById_split (fid : ObjectId) :
    ∀ (fs : List Fulfillment) (f : Fulfillment), fulfillmentById fs fid = some f →
      ∃ pre post, fs = pre ++ f :: post ∧ f._id = fid ∧ (∀ g ∈ pre, g._id ≠ fid) ∧
        markAccepted fid fs = pre ++ { f with status := .accepted } :: post := by
  intro fs
  induction fs with
  | nil => intro f h; simp [fulfillmentById] at h
  | cons g gs ih =>
    intro f h
    by_cases hg : g._id = fid
    · have hb : (g._id == fid) = true := by simpa using hg
      have hfg : g = f := by
        simp only [fulfillmentById, List.find?_cons, hb] at h
        exact Option.some.inj h
      subst hfg
      exact ⟨[], gs, rfl, hg, by simp, by simp [markAccepted, hg]⟩
    · have hb : (g._id == fid) = false := by simpa using hg
      have h' : fulfillmentById gs fid = some f := by
        simp only [fulfillmentById, List.find?_cons, hb] at h
        exact h
      obtain ⟨pre, post, hfs, hid, hpre, hmark⟩ := ih f h'
      refine ⟨g :: pre, post, by simp [hfs], hid, ?_, by simp [markAccepted, hg, hmark]⟩
      intro x hx
      rcases List.mem_cons.mp hx with rfl | hx
      · exact hg
      · exact hpre x hx

theorem mem_markAccepted_of_accepted (fid : ObjectId) :
    ∀ (fs : List Fulfillment) (g : Fulfillment), g ∈ fs → g.status = .accepted →
      g ∈ markAccepted fid fs := by
  intro fs
  induction fs with
  | nil => intro g hg; simp at hg
  | cons x xs ih =>
    intro g hg hs
    by_cases hx : x._id = fid
    · rcases List.mem_cons.mp hg with rfl | hg
      · have : ({ g with status := .accepted } : Fulfillment) = g := by
          cases g; simp_all
        subst hx
        simp [markAccepted, this]
      · simp [markAccepted, hx, hg]
    · rcases List.mem_cons.mp hg with rfl | hg
      · simp [markAccepted, hx]
      · simp [markAccepted, hx, ih g hg hs]

theorem findUser_id (db : Db) (id : ObjectId) (u : User) (h : db.findUser id = some u) :
    u._id = id := by
  have := List.find?_some h
  simpa using this

/-- The answer and the stored contract of `acceptFulfillment` when the caller is the
buyer and the offer exists, whatever the state of the contract. -/
theorem acceptFulfillment_ok (db : Db) (reqUser cid fid : ObjectId) (now : Nat)
    (c : OpenContract) (f : Fulfillment) (hc : db.contracts cid = some c)
    (hb : c.buyer = reqUser) (hf : fulfillmentById c.fulfillments fid = some f) :
    (acceptFulfillment db reqUser cid fid now).2 = .json 200
        { c with
          fulfillments := markAccepted fid c.fulfillments
          winningFulfillment := some
            { farmer := f.farmer, quantity := f.quantity, price := f.price, acceptedAt := now }
          status := .fulfilled } ∧
      (acceptFulfillment db reqUser cid fid now).1.contracts cid = some
        { c with
          fulfillments := markAccepted fid c.fulfillments
          winningFulfillment := some
            { farmer := f.farmer, quantity := f.quantity, price := f.price, acceptedAt := now }
          status := .fulfilled } := by
  unfold acceptFulfillment
  simp only [hc, hb, hf, ne_eq, not_true_eq_false, if_false]
  split <;> simp [Db.saveContract, createNotification]

theorem fulfillmentById_markAccepted (fid : ObjectId) :
    ∀ (fs : List Fulfillment) (f : Fulfillment), fulfillmentById fs fid = some f →
      fulfillmentById (markAccepted fid fs) fid = some { f with status := .accepted } := by
  intro fs
  induction fs with
  | nil => intro f h; simp [fulfillmentById] at h
  | cons g gs ih =>
    intro f h
    by_cases hg : g._id = fid
    · have hb : (g._id == fid) = true := by simpa using hg
      have hfg : g = f := by
        simp only [fulfillmentById, List.find?_cons, hb] at h
        exact Option.some.inj h
      subst hfg
      simp [fulfillmentById, markAccepted, hg]
    · have hb : (g._id == fid) = false := by simpa using hg
      have h' : fulfillmentById gs fid = some f := by
        simp only [fulfillmentById, List.find?_cons, hb] at h
        exact h
      have := ih f h'
      simp only [fulfillmentById] at this
      simp [fulfillmentById, markAccepted, hg, this]

/-! ## Accepting an offer -/

/-- C1, as stated, fails: in the worked negotiation the contract 10 is fulfilled after
the buyer accepted the offer of farmer A; the buyer's next `acceptFulfillment`, for the
offer of farmer B, is answered 200, leaves both offers accepted and replaces the
winning fulfillment. -/
theorem acceptFulfillment_fulfilled_counterexample :
    (dbAcceptedA.contracts 10).map (fun c => (c.status, c.buyer)) = some (.fulfilled, 1) ∧
      (dbAcceptedA.contracts 10).map (fun c => c.winningFulfillment.map (fun w => w.farmer))
        = some (some 2) ∧
      (acceptFulfillment dbAcceptedA 1 10 21 8).2.status = 200 ∧
      ((acceptFulfillment dbAcceptedA 1 10 21 8).1.contracts 10).map
        (fun c => c.fulfillments.map (fun f => (f._id, f.status)))
        = some [(20, .accepted), (21, .accepted)] ∧
      ((acceptFulfillment dbAcceptedA 1 10 21 8).1.contracts 10).map
        (fun c => c.winningFulfillment.map (fun w => w.farmer)) = some (some 3) := by
  decide!

/-- C1, amended: on a contract whose state is fulfilled, `acceptFulfillment` by the
buyer for an offer of the contract is answered 200: the offer becomes accepted, the
winning fulfillment is replaced by that offer's farmer, quantity and price, the state
stays fulfilled, and every offer accepted before is still accepted. -/
theorem acceptFulfillment_on_fulfilled (db : Db) (reqUser cid fid : ObjectId) (now : Nat)
    (c : OpenContract) (f : Fulfillment) (hc : db.contracts cid = some c)
    (hs : c.status = .fulfilled) (hb : c.buyer = reqUser)
    (hf : fulfillmentById c.fulfillments fid = some f) :
    (acceptFulfillment db reqUser cid fid now).2 = .json 200
        { c with
          fulfillments := markAccepted fid c.fulfillments
          winningFulfillment := some
            { farmer := f.farmer, quantity := f.quantity, price := f.price,
              acceptedAt := now } } ∧
      (acceptFulfillment db reqUser cid fid now).1.contracts cid = some
        { c with
          fulfillments := markAccepted fid c.fulfillments
          winningFulfillment := some
            { farmer := f.farmer, quantity := f.quantity, price := f.price,
              acceptedAt := now } } ∧
      fulfillmentById (markAccepted fid c.fulfillments) fid
        = some { f with status := .accepted } ∧
      ∀ g ∈ c.fulfillments, g.status = .accepted → g ∈ markAccepted fid c.fulfillments := by
  have h := acceptFulfillment_ok db reqUser cid fid now c f hc hb hf
  rw [← hs] at h
  exact ⟨h.1, h.2, fulfillmentById_markAccepted fid _ f hf,
    fun g hg hst => mem_markAccepted_of_accepted fid _ g hg hst⟩

/-- Witness of C1 (amended): the second acceptance in the worked negotiation. -/
theorem acceptFulfillment_on_fulfilled_witness :
    (acceptFulfillment dbAcceptedA 1 10 21 8).2 = .json 200
        { contractAcceptedA with
          fulfillments := markAccepted 21 contractAcceptedA.fulfillments
          winningFulfillment := some
            { farmer := offerB.farmer, quantity := offerB.quantity, price := offerB.price,
              acceptedAt := 8 } } ∧
      (acceptFulfillment dbAcceptedA 1 10 21 8).1.contracts 10 = some
        { contractAcceptedA with
          fulfillments := markAccepted 21 contractAcceptedA.fulfillments
          winningFulfillment := some
            { farmer := offerB.farmer, quantity := offerB.quantity, price := offerB.price,
              acceptedAt := 8 } } ∧
      fulfillmentById (markAccepted 21 contractAcceptedA.fulfillments) 21
        = some { offerB with status := .accepted } ∧
      ∀ g ∈ contractAcceptedA.fulfillments, g.status = .accepted →
        g ∈ markAccepted 21 contractAcceptedA.fulfillments :=
  acceptFulfillment_on_fulfilled dbAcceptedA 1 10 21 8 contractAcceptedA offerB
    (by decide!) (by decide!) (by decide!) (by decide!)

/-- C2, as stated, fails: accepting the offer of farmer A in the worked negotiation is
answered 200 with the contract fulfilled, and the offer of farmer B is still pending,
not rejected. -/
theorem acceptFulfillment_siblings_counterexample :
    (acceptFulfillment dbOfferB 1 10 20 7).2 = .json 200 contractAcceptedA ∧
      contractAcceptedA.status = .fulfilled ∧
      contractAcceptedA.fulfillments.map (fun f => (f._id, f.status))
        = [(20, .accepted), (21, .pending)] := by
  decide!

/-- C2, amended: when `acceptFulfillment` is answered 200, the returned and stored
contract has state fulfilled, the targeted offer (the first one with the given id) is
accepted, every other offer is exactly as it was (none is rejected), and the winning
fulfillment carries the farmer, quantity and price of the targeted offer. -/
theorem acceptFulfillment_success (db : Db) (reqUser cid fid : ObjectId) (now : Nat)
    (c' : OpenContract)
    (hok : (acceptFulfillment db reqUser cid fid now).2 = .json 200 c') :
    ∃ c f pre post, db.contracts cid = some c ∧ c.buyer = reqUser ∧
      c.fulfillments = pre ++ f :: post ∧ f._id = fid ∧ (∀ g ∈ pre, g._id ≠ fid) ∧
      c'.fulfillments = pre ++ { f with status := .accepted } :: post ∧
      c'.status = .fulfilled ∧
      c'.winningFulfillment = some
        { farmer := f.farmer, quantity := f.quantity, price := f.price, acceptedAt := now } ∧
      (acceptFulfillment db reqUser cid fid now).1.contracts cid = some c' := by
  cases hc : db.contracts cid with
  | none => simp [acceptFulfillment, hc] at hok
  | some c =>
    by_cases hb : c.buyer = reqUser
    · cases hf : fulfillmentById c.fulfillments fid with
      | none => simp [acceptFulfillment, hc, hb, hf] at hok
      | some f =>
        have h := acceptFulfillment_ok db reqUser cid fid now c f hc hb hf
        obtain ⟨pre, post, hfs, hid, hpre, hmark⟩ := fulfillmentById_split fid _ f hf
        rw [h.1] at hok
        have hc' := Reply.json.inj hok
        refine ⟨c, f, pre, post, rfl, hb, hfs, hid, hpre, ?_, ?_, ?_, ?_⟩
        · rw [← hc'.2]; exact hmark
        · rw [← hc'.2]
        · rw [← hc'.2]
        · rw [← hc'.2]; exact h.2
    · simp [acceptFulfillment, hc, hb] at hok

/-- Witness of C2 (amended): the first acceptance in the worked negotiation. -/
theorem acceptFulfillment_success_witness :
    (acceptFulfillment dbOfferB 1 10 20 7).2 = .json 200 contractAcceptedA ∧
      ∃ c f pre post, dbOfferB.contracts 10 = some c ∧ c.buyer = 1 ∧
        c.fulfillments = pre ++ f :: post ∧ f._id = 20 ∧ (∀ g ∈ pre, g._id ≠ 20) ∧
        contractAcceptedA.fulfillments = pre ++ { f with status := .accepted } :: post ∧
        contractAcceptedA.status = .fulfilled ∧
        contractAcceptedA.winningFulfillment = some
          { farmer := f.farmer, quantity := f.quantity, price := f.price, acceptedAt := 7 } ∧
        (acceptFulfillment dbOfferB 1 10 20 7).1.contracts 10 = some contractAcceptedA :=
  ⟨by decide!, acceptFulfillment_success dbOfferB 1 10 20 7 contractAcceptedA (by decide!)⟩

/-! ## What each handler stores -/

theorem notifyLoop_spec :
    ∀ (us : List User) (db : Db) (c : OpenContract),
      (notifyLoop us db c).1.contracts = db.contracts ∧
        (notifyLoop us db c).1.payouts = db.payouts ∧
        (notifyLoop us db c).1.stripePayouts = db.stripePayouts ∧
        ∃ l, (notifyLoop us db c).2 = { c with notifiedFarmers := l } := by
  intro us
  induction us with
  | nil => intro db c; exact ⟨rfl, rfl, rfl, c.notifiedFarmers, rfl⟩
  | cons u us ih =>
    intro db c
    by_cases hm : u._id ∈ c.notifiedFarmers
    · simpa [notifyLoop, hm] using ih db c
    · obtain ⟨h1, h2, h3, l, h4⟩ := ih (createNotification db u._id "contract")
        { c with notifiedFarmers := c.notifiedFarmers ++ [u._id] }
      simp only [notifyLoop, hm, if_false]
      exact ⟨h1, h2, h3, l, h4⟩

/-- A contract stored after `createOpenContract` was stored before, or is the new one:
open, without offers and without winning fulfillment. -/
theorem createOpenContract_contracts (db : Db) (reqUser newId : ObjectId)
    (body : ContractBody) (i : ObjectId) (c' : OpenContract)
    (h : (createOpenContract db reqUser newId body).1.contracts i = some c') :
    db.contracts i = some c' ∨
      (i = newId ∧ ∃ l, c' =
        { buyer := reqUser, productType := body.productType,
          productCategory := body.productCategory, quantity := body.quantity,
          maxPrice := body.maxPrice, endTime := body.endTime, status := .open,
          fulfillments := [], winningFulfillment := none, notifiedFarmers := l }) := by
  simp only [createOpenContract, notifyRelevantFarmers, Db.saveContract] at h
  by_cases hi : i = newId
  · right
    refine ⟨hi, ?_⟩
    rw [if_pos hi] at h
    obtain ⟨_, _, _, l, hl⟩ := notifyLoop_spec
      (List.filter (fun u => u.role == .farmer &&
        u.products.any (fun p => p.name == body.productType)) db.users)
      (db.saveContract newId
        { buyer := reqUser, productType := body.productType,
          productCategory := body.productCategory, quantity := body.quantity,
          maxPrice := body.maxPrice, endTime := body.endTime, status := .open,
          fulfillments := [], winningFulfillment := none, notifiedFarmers := [] })
      { buyer := reqUser, productType := body.productType,
        productCategory := body.productCategory, quantity := body.quantity,
        maxPrice := body.maxPrice, endTime := body.endTime, status := .open,
        fulfillments := [], winningFulfillment := none, notifiedFarmers := [] }
    refine ⟨l, ?_⟩
    simp only [Db.saveContract] at hl
    rw [hl] at h
    exact (Option.some.inj h).symm
  · left
    rw [if_neg hi] at h
    have hk := (notifyLoop_spec
      (List.filter (fun u => u.role == .farmer &&
        u.products.any (fun p => p.name == body.productType)) db.users)
      (db.saveContract newId
        { buyer := reqUser, productType := body.productType,
          productCategory := body.productCategory, quantity := body.quantity,
          maxPrice := body.maxPrice, endTime := body.endTime, status := .open,
          fulfillments := [], winningFulfillment := none, notifiedFarmers := [] })
      { buyer := reqUser, productType := body.productType,
        productCategory := body.productCategory, quantity := body.quantity,
        maxPrice := body.maxPrice, endTime := body.endTime, status := .open,
        fulfillments := [], winningFulfillment := none, notifiedFarmers := [] }).1
    simp only [Db.saveContract] at hk
    rw [hk] at h
    simpa [hi] using h

/-- What `fulfillOpenContract` does when it is answered 200: the contract exists, can
be fulfilled, the offer is within the ceiling and the requested quantity, and the
contract is stored and returned with the pending offer of the caller appended. -/
theorem fulfillOpenContract_ok (db : Db) (reqUser cid newId : ObjectId) (quantity price : ℚ)
    (now : Nat) (hok : (fulfillOpenContract db reqUser cid newId quantity price now).2.status = 200) :
    ∃ c, db.contracts cid = some c ∧ canBeFulfilled c now = true ∧
      price ≤ c.maxPrice ∧ quantity ≤ c.quantity ∧
      (fulfillOpenContract db reqUser cid newId quantity price now).2 = .json 200
        { c with
          fulfillments := c.fulfillments ++
            [{ _id := newId, farmer := reqUser, quantity := quantity, price := price,
               status := .pending }]
          status := .pending_fulfillment } ∧
      (fulfillOpenContract db reqUser cid newId quantity price now).1 =
        createNotification (db.saveContract cid
          { c with
            fulfillments := c.fulfillments ++
              [{ _id := newId, farmer := reqUser, quantity := quantity, price := price,
                 status := .pending }]
            status := .pending_fulfillment }) c.buyer "fulfillment" := by
  cases hc : db.contracts cid with
  | none => simp [fulfillOpenContract, hc, Reply.status] at hok
  | some c =>
    by_cases hcan : canBeFulfilled c now = true
    · by_cases hp : price > c.maxPrice
      · simp [fulfillOpenContract, hc, hcan, hp, Reply.status] at hok
      · by_cases hq : quantity > c.quantity
        · simp [fulfillOpenContract, hc, hcan, hp, hq, Reply.status] at hok
        · cases hbu : db.findUser c.buyer with
          | none => simp [fulfillOpenContract, hc, hcan, hp, hq, hbu, Reply.status] at hok
          | some buyer =>
            cases hfa : db.findUser reqUser with
            | none => simp [fulfillOpenContract, hc, hcan, hp, hq, hbu, hfa, Reply.status] at hok
            | some farmer =>
              have h1 := findUser_id db _ _ hbu
              have h2 := findUser_id db _ _ hfa
              refine ⟨c, rfl, hcan, not_lt.mp hp, not_lt.mp hq, ?_, ?_⟩
              · simp [fulfillOpenContract, hc, hcan, hp, hq, hbu, hfa, h2]
              · simp [fulfillOpenContract, hc, hcan, hp, hq, hbu, hfa, h1, h2]
    · simp [fulfillOpenContract, hc, hcan, Reply.status] at hok

/-- When `fulfillOpenContract` is not answered 200, it stores nothing. -/
theorem fulfillOpenContract_fail (db : Db) (reqUser cid newId : ObjectId) (quantity price : ℚ)
    (now : Nat) (hno : (fulfillOpenContract db reqUser cid newId quantity price now).2.status ≠ 200) :
    (fulfillOpenContract db reqUser cid newId quantity price now).1 = db := by
  unfold fulfillOpenContract at hno ⊢
  split
  · rfl
  · split
    · rfl
    · split
      · rfl
      · split
        · rfl
        · split
          · rename_i h1 h2 h3 h4 h5 h6 h7 h8 h9
            simp_all [Reply.status]
          · rfl

/-- A contract stored after `fulfillOpenContract` was stored before, or is the
targeted contract with the pending offer appended. -/
theorem fulfillOpenContract_contracts (db : Db) (reqUser cid newId : ObjectId)
    (quantity price : ℚ) (now : Nat) (i : ObjectId) (c' : OpenContract)
    (h : (fulfillOpenContract db reqUser cid newId quantity price now).1.contracts i = some c') :
    db.contracts i = some c' ∨
      (i = cid ∧ ∃ c, db.contracts cid = some c ∧ canBeFulfilled c now = true ∧
        price ≤ c.maxPrice ∧ quantity ≤ c.quantity ∧
        c' = { c with
          fulfillments := c.fulfillments ++
            [{ _id := newId, farmer := reqUser, quantity := quantity, price := price,
               status := .pending }]
          status := .pending_fulfillment }) := by
  by_cases hok : (fulfillOpenContract db reqUser cid newId quantity price now).2.status = 200
  · obtain ⟨c, hc, hcan, hp, hq, _, hdb⟩ :=
      fulfillOpenContract_ok db reqUser cid newId quantity price now hok
    rw [hdb] at h
    simp only [createNotification, Db.saveContract] at h
    by_cases hi : i = cid
    · right
      rw [if_pos hi] at h
      exact ⟨hi, c, hc, hcan, hp, hq, (Option.some.inj h).symm⟩
    · left
      rw [if_neg hi] at h
      exact h
  · left
    rw [fulfillOpenContract_fail db reqUser cid newId quantity price now hok] at h
    exact h

/-- A contract stored after `acceptFulfillment` was stored before, or is the targeted
contract with the offer accepted and the winning fulfillment written. -/
theorem acceptFulfillment_contracts (db : Db) (reqUser cid fid : ObjectId) (now : Nat)
    (i : ObjectId) (c' : OpenContract)
    (h : (acceptFulfillment db reqUser cid fid now).1.contracts i = some c') :
    db.contracts i = some c' ∨
      (i = cid ∧ ∃ c f, db.contracts cid = some c ∧
        fulfillmentById c.fulfillments fid = some f ∧
        c' = { c with
          fulfillments := markAccepted fid c.fulfillments
          winningFulfillment := some
            { farmer := f.farmer, quantity := f.quantity, price := f.price,
              acceptedAt := now }
          status := .fulfilled }) := by
  cases hc : db.contracts cid with
  | none => left; simpa [acceptFulfillment, hc] using h
  | some c =>
    by_cases hb : c.buyer = reqUser
    · cases hf : fulfillmentById c.fulfillments fid with
      | none => left; simpa [acceptFulfillment, hc, hb, hf] using h
      | some f =>
        by_cases hi : i = cid
        · right
          have h2 := (acceptFulfillment_ok db reqUser cid fid now c f hc hb hf).2
          rw [hi, h2] at h
          exact ⟨hi, c, f, rfl, hf, (Option.some.inj h).symm⟩
        · left
          unfold acceptFulfillment at h
          simp only [hc, hb, hf, ne_eq, not_true_eq_false, if_false] at h
          split at h <;> simpa [Db.saveContract, createNotification, hi] using h
    · left; simpa [acceptFulfillment, hc, hb] using h

/-! ## The winner invariant -/

theorem canBeFulfilled_status (c : OpenContract) (now : Nat)
    (h : canBeFulfilled c now = true) :
    (c.status = .open ∨ c.status = .pending_fulfillment) ∧ now < c.endTime := by
  simpa [canBeFulfilled] using h

theorem winnerInv_reachable (db : Db) (hr : Reachable db) :
    ∀ i c, db.contracts i = some c → WinnerInv c := by
  induction hr with
  | init db h => intro i c hc; simp [h i] at hc
  | create reqUser newId body _ ih =>
    intro i c hc
    rcases createOpenContract_contracts _ reqUser newId body i c hc with h | ⟨_, l, rfl⟩
    · exact ih i c h
    · simp [WinnerInv]
  | fulfill reqUser cid newId quantity price now _ ih =>
    intro i c hc
    rcases fulfillOpenContract_contracts _ reqUser cid newId quantity price now i c hc
      with h | ⟨_, c0, hc0, hcan, _, _, rfl⟩
    · exact ih i c h
    · obtain ⟨hiff, _, hacc⟩ := ih cid c0 hc0
      have hst := (canBeFulfilled_status c0 now hcan).1
      have hnf : c0.status ≠ .fulfilled := by
        rcases hst with h | h <;> simp [h]
      have hnone : c0.winningFulfillment = none := by
        cases hw : c0.winningFulfillment with
        | none => rfl
        | some w => exact absurd (hiff.mp (by simp [hw])) hnf
      refine ⟨?_, ?_, ?_⟩
      · simp [hnone]
      · intro w hw; simp [hnone] at hw
      · rintro ⟨f, hf, hfs⟩
        simp only [List.mem_append, List.mem_singleton] at hf
        rcases hf with hf | rfl
        · exact absurd (hacc ⟨f, hf, hfs⟩) hnf
        · simp at hfs
  | accept reqUser cid fid now _ ih =>
    intro i c hc
    rcases acceptFulfillment_contracts _ reqUser cid fid now i c hc
      with h | ⟨_, c0, f, _, hf, rfl⟩
    · exact ih i c h
    · obtain ⟨pre, post, _, _, _, hmark⟩ := fulfillmentById_split fid _ f hf
      refine ⟨by simp, ?_, fun _ => rfl⟩
      intro w hw
      have hw' := Option.some.inj hw
      subst hw'
      exact ⟨{ f with status := .accepted }, by simp [hmark], rfl, rfl, rfl, rfl⟩

theorem reachable_dbAcceptedA : Reachable dbAcceptedA :=
  Reachable.accept 1 10 20 7 (Reachable.fulfill 3 10 21 50 9 6
    (Reachable.fulfill 2 10 20 80 (19 / 2) 5
      (Reachable.create 1 10 tomatoBody (Reachable.init emptyDb (fun _ => rfl)))))

/-- C3, as stated, fails: the store of the worked negotiation after the buyer accepted
the offers of farmer A and of farmer B is reachable, and its contract 10 has two
accepted offers. -/
theorem winner_unique_counterexample :
    Reachable dbAcceptedB ∧
      (dbAcceptedB.contracts 10).map
        (fun c => (c.fulfillments.filter (fun f => f.status == .accepted)).length)
        = some 2 :=
  ⟨Reachable.accept 1 10 21 8 reachable_dbAcceptedA, by decide!⟩

/-- C3, amended: in every store reachable from one without contracts by calls of
`createOpenContract`, `fulfillOpenContract` and `acceptFulfillment`, every contract
has its winning fulfillment set if and only if its state is fulfilled; when set, the
winning fulfillment has the farmer, quantity and price of an accepted offer of the
contract; and an offer is accepted only on a fulfilled contract. -/
theorem winner_invariant (db : Db) (hr : Reachable db) (cid : ObjectId) (c : OpenContract)
    (hc : db.contracts cid = some c) :
    (c.winningFulfillment.isSome = true ↔ c.status = .fulfilled) ∧
      (∀ w, c.winningFulfillment = some w →
        ∃ f ∈ c.fulfillments, f.status = .accepted ∧ f.farmer = w.farmer ∧
          f.quantity = w.quantity ∧ f.price = w.price) ∧
      ((∃ f ∈ c.fulfillments, f.status = .accepted) → c.status = .fulfilled) :=
  winnerInv_reachable db hr cid c hc

/-- Witness of C3 (amended): the contract 10 after the first acceptance. -/
theorem winner_invariant_witness :
    Reachable dbAcceptedA ∧ dbAcceptedA.contracts 10 = some contractAcceptedA ∧
      (contractAcceptedA.winningFulfillment.isSome = true ↔
        contractAcceptedA.status = .fulfilled) ∧
      (∀ w, contractAcceptedA.winningFulfillment = some w →
        ∃ f ∈ contractAcceptedA.fulfillments, f.status = .accepted ∧ f.farmer = w.farmer ∧
          f.quantity = w.quantity ∧ f.price = w.price) ∧
      ((∃ f ∈ contractAcceptedA.fulfillments, f.status = .accepted) →
        contractAcceptedA.status = .fulfilled) :=
  ⟨reachable_dbAcceptedA, by decide!,
    winner_invariant dbAcceptedA reachable_dbAcceptedA 10 contractAcceptedA (by decide!)⟩

/-! ## Submitting an offer -/

/-- C4, as stated, fails: the contract 10 of the worked negotiation is fulfilled and
past its end time; an offer at 11.00, above the ceiling of 10.00, is refused with the
answer for a contract that is no longer open, not with the one for the price. -/
theorem price_ceiling_counterexample :
    dbAcceptedA.contracts 10 = some contractAcceptedA ∧
      (11 : ℚ) > contractAcceptedA.maxPrice ∧
      (fulfillOpenContract dbAcceptedA 2 10 22 10 11 2000).2 =
        .message 400 "This contract has expired or is no longer open for fulfillment." ∧
      (fulfillOpenContract dbAcceptedA 2 10 22 10 11 2000).2 ≠
        .message 400 "Offered price exceeds the maximum price set by the buyer." := by
  decide!

/-- C4, amended: for every existing contract and every offer with a price above
`maxPrice`, `fulfillOpenContract` stores nothing and answers 400: with the
price-ceiling message when the contract can be fulfilled, and with the
no-longer-open message when it cannot. -/
theorem fulfillOpenContract_price_ceiling (db : Db) (reqUser cid newId : ObjectId)
    (quantity price : ℚ) (now : Nat) (c : OpenContract) (hc : db.contracts cid = some c)
    (hp : price > c.maxPrice) :
    fulfillOpenContract db reqUser cid newId quantity price now =
      (db, .message 400
        (if canBeFulfilled c now then
          "Offered price exceeds the maximum price set by the buyer."
         else "This contract has expired or is no longer open for fulfillment.")) := by
  by_cases hcan : canBeFulfilled c now = true
  · simp [fulfillOpenContract, hc, hcan, hp]
  · simp [fulfillOpenContract, hc, hcan]

/-- Witness of C4 (amended): an offer at 11.00 on the posted contract. -/
theorem fulfillOpenContract_price_ceiling_witness :
    dbPosted.contracts 10 = some contractPosted ∧ (11 : ℚ) > contractPosted.maxPrice ∧
      canBeFulfilled contractPosted 5 = true ∧
      fulfillOpenContract dbPosted 2 10 20 80 11 5 =
        (dbPosted, .message 400
          (if canBeFulfilled contractPosted 5 then
            "Offered price exceeds the maximum price set by the buyer."
           else "This contract has expired or is no longer open for fulfillment.")) :=
  ⟨by decide!, by decide!, by decide!,
    fulfillOpenContract_price_ceiling dbPosted 2 10 20 80 11 5 contractPosted
      (by decide!) (by decide!)⟩

theorem submitOffers_spec (cid : ObjectId) :
    ∀ (calls : List OfferCall) (db : Db) (c : OpenContract) (db' : Db),
      db.contracts cid = some c → submitOffers cid db calls = some db' →
      db'.contracts cid = some
        { c with
          fulfillments := c.fulfillments ++ calls.map OfferCall.pending
          status := if calls.isEmpty then c.status else .pending_fulfillment } := by
  intro calls
  induction calls with
  | nil =>
    intro db c db' hc hrun
    simp only [submitOffers] at hrun
    rw [← Option.some.inj hrun]
    simpa using hc
  | cons k ks ih =>
    intro db c db' hc hrun
    simp only [submitOffers] at hrun
    split at hrun
    · rename_i hok
      obtain ⟨c0, hc0, _, _, _, _, hdb⟩ :=
        fulfillOpenContract_ok db k.reqUser cid k.newId k.quantity k.price k.now hok
      rw [hc] at hc0
      have hcc := Option.some.inj hc0
      subst hcc
      have hstored :
          (fulfillOpenContract db k.reqUser cid k.newId k.quantity k.price k.now).1.contracts cid
            = some { c with
                fulfillments := c.fulfillments ++ [k.pending]
                status := .pending_fulfillment } := by
        rw [hdb]; simp [createNotification, Db.saveContract, OfferCall.pending]
      have := ih _ _ db' hstored hrun
      rw [this]
      cases ks <;> simp
    · simp at hrun

/-- C5: when a sequence of `fulfillOpenContract` requests on one contract is answered
200 throughout, the stored contract is the old one with one pending offer per request
appended in order, each with the caller as farmer and the given quantity and price;
the earlier offers and every other field are unchanged, except that the state is
pending_fulfillment as soon as one request was made. On a contract without offers, such
as a new one, N requests leave exactly N offers, all pending. -/
theorem submitOffers_appends (db : Db) (cid : ObjectId) (c : OpenContract)
    (calls : List OfferCall) (db' : Db) (hc : db.contracts cid = some c)
    (hrun : submitOffers cid db calls = some db') :
    db'.contracts cid = some
        { c with
          fulfillments := c.fulfillments ++ calls.map OfferCall.pending
          status := if calls.isEmpty then c.status else .pending_fulfillment } ∧
      (c.fulfillments = [] → ∃ c', db'.contracts cid = some c' ∧
        c'.fulfillments.length = calls.length ∧
        ∀ f ∈ c'.fulfillments, f.status = .pending) := by
  have h := submitOffers_spec cid calls db c db' hc hrun
  refine ⟨h, fun hnil => ⟨_, h, ?_, ?_⟩⟩
  · simp [hnil]
  · intro f hf
    simp only [hnil, List.nil_append, List.mem_map] at hf
    obtain ⟨k, _, rfl⟩ := hf
    rfl

/-- Witness of C5: the two offers of the worked negotiation on the new contract. -/
theorem submitOffers_appends_witness :
    dbPosted.contracts 10 = some contractPosted ∧
      submitOffers 10 dbPosted
        [{ reqUser := 2, newId := 20, quantity := 80, price := 19 / 2, now := 5 },
         { reqUser := 3, newId := 21, quantity := 50, price := 9, now := 6 }]
        = some dbOfferB ∧
      dbOfferB.contracts 10 = some contractOfferB ∧
      contractOfferB.fulfillments.length = 2 ∧
      (∀ f ∈ contractOfferB.fulfillments, f.status = .pending) ∧
      (dbOfferB.contracts 10 = some
          { contractPosted with
            fulfillments := contractPosted.fulfillments ++
              [({ reqUser := 2, newId := 20, quantity := 80, price := 19 / 2, now := 5 } :
                  OfferCall),
               { reqUser := 3, newId := 21, quantity := 50, price := 9, now := 6 }].map
                OfferCall.pending
            status :=
              if [({ reqUser := 2, newId := 20, quantity := 80, price := 19 / 2, now := 5 } :
                  OfferCall),
                { reqUser := 3, newId := 21, quantity := 50, price := 9, now := 6 }].isEmpty
              then contractPosted.status else .pending_fulfillment } ∧
        (contractPosted.fulfillments = [] → ∃ c', dbOfferB.contracts 10 = some c' ∧
          c'.fulfillments.length =
            [({ reqUser := 2, newId := 20, quantity := 80, price := 19 / 2, now := 5 } :
                OfferCall),
              { reqUser := 3, newId := 21, quantity := 50, price := 9, now := 6 }].length ∧
          ∀ f ∈ c'.fulfillments, f.status = .pending)) :=
  ⟨by decide!,
    by simp only [submitOffers]; rw [if_pos (by decide!), if_pos (by decide!)]; rfl,
    by decide!, by decide!, by decide!,
    submitOffers_appends dbPosted 10 contractPosted _ dbOfferB (by decide!)
      (by simp only [submitOffers]; rw [if_pos (by decide!), if_pos (by decide!)]; rfl)⟩

/-! ## Bounds of the stored offers -/

theorem mem_markAccepted (fid : ObjectId) :
    ∀ (fs : List Fulfillment) (g : Fulfillment), g ∈ markAccepted fid fs →
      ∃ g0 ∈ fs, g.quantity = g0.quantity ∧ g.price = g0.price := by
  intro fs
  induction fs with
  | nil => intro g hg; simp [markAccepted] at hg
  | cons x xs ih =>
    intro g hg
    by_cases hx : x._id = fid
    · simp only [markAccepted, hx, beq_self_eq_true, if_true, List.mem_cons] at hg
      rcases hg with rfl | hg
      · exact ⟨x, by simp, rfl, rfl⟩
      · exact ⟨g, by simp [hg], rfl, rfl⟩
    · have hb : (x._id == fid) = false := by simpa using hx
      simp only [markAccepted, hb, Bool.false_eq_true, if_false, List.mem_cons] at hg
      rcases hg with rfl | hg
      · exact ⟨g, by simp, rfl, rfl⟩
      · obtain ⟨g0, hg0, h1, h2⟩ := ih g hg
        exact ⟨g0, by simp [hg0], h1, h2⟩

theorem bounds_reachable (db : Db) (hr : Reachable db) :
    ∀ i c, db.contracts i = some c →
      ∀ f ∈ c.fulfillments, f.quantity ≤ c.quantity ∧ f.price ≤ c.maxPrice := by
  induction hr with
  | init db h => intro i c hc; simp [h i] at hc
  | create reqUser newId body _ ih =>
    intro i c hc
    rcases createOpenContract_contracts _ reqUser newId body i c hc with h | ⟨_, l, rfl⟩
    · exact ih i c h
    · intro f hf; simp at hf
  | fulfill reqUser cid newId quantity price now _ ih =>
    intro i c hc
    rcases fulfillOpenContract_contracts _ reqUser cid newId quantity price now i c hc
      with h | ⟨_, c0, hc0, _, hp, hq, rfl⟩
    · exact ih i c h
    · intro f hf
      simp only [List.mem_append, List.mem_singleton] at hf
      rcases hf with hf | rfl
      · exact ih cid c0 hc0 f hf
      · exact ⟨hq, hp⟩
  | accept reqUser cid fid now _ ih =>
    intro i c hc
    rcases acceptFulfillment_contracts _ reqUser cid fid now i c hc
      with h | ⟨_, c0, f0, hc0, _, rfl⟩
    · exact ih i c h
    · intro f hf
      obtain ⟨g0, hg0, h1, h2⟩ := mem_markAccepted fid _ f hf
      have := ih cid c0 hc0 g0 hg0
      exact ⟨h1 ▸ this.1, h2 ▸ this.2⟩

/-- C6, as stated, fails: on the posted contract of the worked negotiation an offer of
quantity 0 at price -5 is answered 200 and appended, and the resulting store is
reachable. -/
theorem nonpositive_offer_counterexample :
    Reachable (fulfillOpenContract dbPosted 2 10 20 0 (-5) 5).1 ∧
      (fulfillOpenContract dbPosted 2 10 20 0 (-5) 5).2 = .json 200
        { contractPosted with
          fulfillments :=
            [{ _id := 20, farmer := 2, quantity := 0, price := -5, status := .pending }]
          status := .pending_fulfillment } :=
  ⟨Reachable.fulfill 2 10 20 0 (-5) 5
      (Reachable.create 1 10 tomatoBody (Reachable.init emptyDb (fun _ => rfl))),
    by decide!⟩

/-- C6, amended: in every store reachable from one without contracts by calls of
`createOpenContract`, `fulfillOpenContract` and `acceptFulfillment`, every offer of
every contract has a quantity at most the contract's quantity and a price at most the
contract's `maxPrice`. -/
theorem offer_bounds (db : Db) (hr : Reachable db) (cid : ObjectId) (c : OpenContract)
    (hc : db.contracts cid = some c) (f : Fulfillment) (hf : f ∈ c.fulfillments) :
    f.quantity ≤ c.quantity ∧ f.price ≤ c.maxPrice :=
  bounds_reachable db hr cid c hc f hf

/-- Witness of C6 (amended): the offer of farmer B on the contract 10. -/
theorem offer_bounds_witness :
    Reachable dbAcceptedA ∧ dbAcceptedA.contracts 10 = some contractAcceptedA ∧
      offerB ∈ contractAcceptedA.fulfillments ∧
      offerB.quantity ≤ contractAcceptedA.quantity ∧
      offerB.price ≤ contractAcceptedA.maxPrice :=
  ⟨reachable_dbAcceptedA, by decide!, by decide!,
    offer_bounds dbAcceptedA reachable_dbAcceptedA 10 contractAcceptedA (by decide!)
      offerB (by decide!)⟩

/-! ## Refused acceptances -/

/-- C11: for every existing contract, `acceptFulfillment` by a caller other than the
buyer is answered 403 (not authorized), and by the buyer for an id that no offer of the
contract has is answered 404 (offer not found); in both cases, and whenever the answer
is not 200, the store is returned as it was, so the contract state, every offer and
the winning fulfillment are as before the call. -/
theorem acceptFulfillment_failure (db : Db) (reqUser cid fid : ObjectId) (now : Nat)
    (c : OpenContract) (hc : db.contracts cid = some c) :
    (c.buyer ≠ reqUser → acceptFulfillment db reqUser cid fid now =
        (db, .message 403 "Not authorized to accept fulfillments for this contract")) ∧
      (c.buyer = reqUser → fulfillmentById c.fulfillments fid = none →
        acceptFulfillment db reqUser cid fid now =
          (db, .message 404 "Fulfillment offer not found")) ∧
      ((acceptFulfillment db reqUser cid fid now).2.status ≠ 200 →
        (acceptFulfillment db reqUser cid fid now).1 = db ∧
          (acceptFulfillment db reqUser cid fid now).1.contracts cid = some c) := by
  refine ⟨fun hb => ?_, fun hb hf => ?_, fun hno => ?_⟩
  · simp [acceptFulfillment, hc, hb]
  · simp [acceptFulfillment, hc, hb, hf]
  · by_cases hb : c.buyer = reqUser
    · cases hf : fulfillmentById c.fulfillments fid with
      | none => simp [acceptFulfillment, hc, hb, hf]
      | some f =>
        have h := (acceptFulfillment_ok db reqUser cid fid now c f hc hb hf).1
        rw [h] at hno
        exact absurd rfl hno
    · simp [acceptFulfillment, hc, hb]

/-- Witness of C11: on the contract 10 with its two offers, farmer A may not accept,
and the buyer cannot accept an offer 99 that does not exist. -/
theorem acceptFulfillment_failure_witness :
    dbOfferB.contracts 10 = some contractOfferB ∧ contractOfferB.buyer ≠ 2 ∧
      acceptFulfillment dbOfferB 2 10 20 7 =
        (dbOfferB, .message 403 "Not authorized to accept fulfillments for this contract") ∧
      contractOfferB.buyer = 1 ∧ fulfillmentById contractOfferB.fulfillments 99 = none ∧
      acceptFulfillment dbOfferB 1 10 99 7 =
        (dbOfferB, .message 404 "Fulfillment offer not found") :=
  ⟨by decide!, by decide!,
    (acceptFulfillment_failure dbOfferB 2 10 20 7 contractOfferB (by decide!)).1 (by decide!),
    by decide!, by decide!,
    (acceptFulfillment_failure dbOfferB 1 10 99 7 contractOfferB (by decide!)).2.1
      (by decide!) (by decide!)⟩

/-! ## Posting a contract -/

theorem notifyLoop_notified :
    ∀ (us : List User) (db : Db) (c : OpenContract), c.notifiedFarmers.Nodup →
      (notifyLoop us db c).2.notifiedFarmers.Nodup ∧
        ∀ id, id ∈ (notifyLoop us db c).2.notifiedFarmers ↔
          id ∈ c.notifiedFarmers ∨ ∃ u ∈ us, u._id = id := by
  intro us
  induction us with
  | nil => intro db c hn; exact ⟨hn, fun id => by simp [notifyLoop]⟩
  | cons u us ih =>
    intro db c hn
    by_cases hm : u._id ∈ c.notifiedFarmers
    · obtain ⟨h1, h2⟩ := ih db c hn
      simp only [notifyLoop, hm, if_true]
      refine ⟨h1, fun id => ?_⟩
      rw [h2 id]
      constructor
      · rintro (h | ⟨v, hv, rfl⟩)
        · exact Or.inl h
        · exact Or.inr ⟨v, List.mem_cons_of_mem _ hv, rfl⟩
      · rintro (h | ⟨v, hv, rfl⟩)
        · exact Or.inl h
        · rcases List.mem_cons.mp hv with rfl | hv
          · exact Or.inl hm
          · exact Or.inr ⟨v, hv, rfl⟩
    · have hn' : (c.notifiedFarmers ++ [u._id]).Nodup := by
        rw [List.nodup_append]
        exact ⟨hn, List.nodup_singleton _, by
          intro a ha hb
          rw [List.mem_singleton] at hb
          exact hm (hb ▸ ha)⟩
      obtain ⟨h1, h2⟩ := ih (createNotification db u._id "contract")
        { c with notifiedFarmers := c.notifiedFarmers ++ [u._id] } hn'
      simp only [notifyLoop, hm, if_false]
      refine ⟨h1, fun id => ?_⟩
      rw [h2 id]
      simp only [List.mem_append, List.mem_singleton]
      constructor
      · rintro ((h | rfl) | ⟨v, hv, rfl⟩)
        · exact Or.inl h
        · exact Or.inr ⟨u, List.mem_cons_self _ _, rfl⟩
        · exact Or.inr ⟨v, List.mem_cons_of_mem _ hv, rfl⟩
      · rintro (h | ⟨v, hv, rfl⟩)
        · exact Or.inl (Or.inl h)
        · rcases List.mem_cons.mp hv with rfl | hv
          · exact Or.inl (Or.inr rfl)
          · exact Or.inr ⟨v, hv, rfl⟩

/-- C12, as stated, fails: posting the tomato contract in a store where farmer A sells
tomatoes is answered 201 with a contract that is open and without offers, and whose
notified farmers are farmer A, not nobody. -/
theorem notified_counterexample :
    (createOpenContract emptyDb 1 10 tomatoBody).2 = .json 201 contractPosted ∧
      contractPosted.status = .open ∧ contractPosted.fulfillments = [] ∧
      contractPosted.notifiedFarmers = [2] ∧ contractPosted.notifiedFarmers ≠ [] := by
  decide!

/-- C12, amended: `createOpenContract` answers 201 with the contract it stored: state
open, no offers, no winning fulfillment, and as notified farmers, each once, exactly
the users with role farmer who have a product named like the contract's product type;
the list is empty exactly when no such farmer exists. -/
theorem createOpenContract_reply (db : Db) (reqUser newId : ObjectId) (body : ContractBody) :
    ∃ l : List ObjectId,
      (createOpenContract db reqUser newId body).2 = .json 201
        { buyer := reqUser, productType := body.productType,
          productCategory := body.productCategory, quantity := body.quantity,
          maxPrice := body.maxPrice, endTime := body.endTime, status := .open,
          fulfillments := [], winningFulfillment := none, notifiedFarmers := l } ∧
      (createOpenContract db reqUser newId body).1.contracts newId = some
        { buyer := reqUser, productType := body.productType,
          productCategory := body.productCategory, quantity := body.quantity,
          maxPrice := body.maxPrice, endTime := body.endTime, status := .open,
          fulfillments := [], winningFulfillment := none, notifiedFarmers := l } ∧
      l.Nodup ∧
      (∀ id, id ∈ l ↔ ∃ u ∈ db.users, u._id = id ∧ u.role = .farmer ∧
        ∃ p ∈ u.products, p.name = body.productType) ∧
      (l = [] ↔ ∀ u ∈ db.users, u.role = .farmer → ∀ p ∈ u.products,
        p.name ≠ body.productType) := by
  obtain ⟨_, _, _, l, hl⟩ := notifyLoop_spec
    (List.filter (fun u => u.role == .farmer &&
      u.products.any (fun p => p.name == body.productType)) db.users)
    (db.saveContract newId
      { buyer := reqUser, productType := body.productType,
        productCategory := body.productCategory, quantity := body.quantity,
        maxPrice := body.maxPrice, endTime := body.endTime, status := .open,
        fulfillments := [], winningFulfillment := none, notifiedFarmers := [] })
    { buyer := reqUser, productType := body.productType,
      productCategory := body.productCategory, quantity := body.quantity,
      maxPrice := body.maxPrice, endTime := body.endTime, status := .open,
      fulfillments := [], winningFulfillment := none, notifiedFarmers := [] }
  obtain ⟨hnd, hmem⟩ := notifyLoop_notified
    (List.filter (fun u => u.role == .farmer &&
      u.products.any (fun p => p.name == body.productType)) db.users)
    (db.saveContract newId
      { buyer := reqUser, productType := body.productType,
        productCategory := body.productCategory, quantity := body.quantity,
        maxPrice := body.maxPrice, endTime := body.endTime, status := .open,
        fulfillments := [], winningFulfillment := none, notifiedFarmers := [] })
    { buyer := reqUser, productType := body.productType,
      productCategory := body.productCategory, quantity := body.quantity,
      maxPrice := body.maxPrice, endTime := body.endTime, status := .open,
      fulfillments := [], winningFulfillment := none, notifiedFarmers := [] }
    List.nodup_nil
  rw [hl] at hnd hmem
  have hchar : ∀ id, id ∈ l ↔ ∃ u ∈ db.users, u._id = id ∧ u.role = .farmer ∧
      ∃ p ∈ u.products, p.name = body.productType := by
    intro id
    have := hmem id
    simp only [List.not_mem_nil, false_or, List.mem_filter, Bool.and_eq_true,
      beq_iff_eq, List.any_eq_true] at this
    rw [this]
    constructor
    · rintro ⟨u, ⟨hu, hr, p, hp, hpn⟩, rfl⟩
      exact ⟨u, hu, rfl, hr, p, hp, hpn⟩
    · rintro ⟨u, hu, rfl, hr, p, hp, hpn⟩
      exact ⟨u, ⟨hu, hr, p, hp, hpn⟩, rfl⟩
  refine ⟨l, ?_, ?_, hnd, hchar, ?_⟩
  · exact congrArg (Reply.json 201) hl
  · have hst : (createOpenContract db reqUser newId body).1.contracts newId =
        some (notifyLoop
          (List.filter (fun u => u.role == .farmer &&
            u.products.any (fun p => p.name == body.productType)) db.users)
          (db.saveContract newId
            { buyer := reqUser, productType := body.productType,
              productCategory := body.productCategory, quantity := body.quantity,
              maxPrice := body.maxPrice, endTime := body.endTime, status := .open,
              fulfillments := [], winningFulfillment := none, notifiedFarmers := [] })
          { buyer := reqUser, productType := body.productType,
            productCategory := body.productCategory, quantity := body.quantity,
            maxPrice := body.maxPrice, endTime := body.endTime, status := .open,
            fulfillments := [], winningFulfillment := none, notifiedFarmers := [] }).2 :=
      if_pos rfl
    rw [hst, hl]
  · constructor
    · intro hnil u hu hr p hp hpn
      have : u._id ∈ l := (hchar u._id).mpr ⟨u, hu, rfl, hr, p, hp, hpn⟩
      rw [hnil] at this
      exact absurd this (List.not_mem_nil _)
    · intro hall
      apply List.eq_nil_iff_forall_not_mem.mpr
      intro id hid
      obtain ⟨u, hu, _, hr, p, hp, hpn⟩ := (hchar id).mp hid
      exact hall u hu hr p hp hpn

/-! ## Acceptance and settlement -/

theorem acceptFulfillment_frame (db : Db) (reqUser cid fid : ObjectId) (now : Nat) :
    (acceptFulfillment db reqUser cid fid now).1.payouts = db.payouts ∧
      (acceptFulfillment db reqUser cid fid now).1.stripePayouts = db.stripePayouts ∧
      (acceptFulfillment db reqUser cid fid now).1.transactions = db.transactions := by
  unfold acceptFulfillment
  split
  · exact ⟨rfl, rfl, rfl⟩
  · split
    · exact ⟨rfl, rfl, rfl⟩
    · split
      · exact ⟨rfl, rfl, rfl⟩
      · dsimp only
        split <;> exact ⟨rfl, rfl, rfl⟩

/-- C7, as stated, fails: in the worked negotiation restricted to farmer A, the buyer
accepts the offer (80, 9.50) on the contract (100, 10.00); the answer is 200, the
winning fulfillment is worth 80 × 9.50 = 760.00, and no `Payout` record exists and no
payout was created at the payment processor. -/
theorem accept_payout_counterexample :
    (acceptFulfillment dbOfferA 1 10 20 7).2.status = 200 ∧
      ((acceptFulfillment dbOfferA 1 10 20 7).1.contracts 10).map
        (fun c => c.winningFulfillment.map (fun w => w.quantity * w.price))
        = some (some 760) ∧
      (acceptFulfillment dbOfferA 1 10 20 7).1.payouts = [] ∧
      (acceptFulfillment dbOfferA 1 10 20 7).1.stripePayouts = [] :=
  ⟨by decide!, by decide!, List.eq_nil_of_length_eq_zero (by decide!),
    List.eq_nil_of_length_eq_zero (by decide!)⟩

/-- C7, amended: a successful `acceptFulfillment` returns and stores the contract with
the winning fulfillment written from the accepted offer: its farmer, its quantity and
its price (so that quantity × price of the winner is the gross value of that offer),
accepted at the time of the call; and it neither creates a `Payout` record nor a
payout at the payment processor: both collections, and the transactions, are as before
the call. -/
theorem acceptFulfillment_no_payout (db : Db) (reqUser cid fid : ObjectId) (now : Nat)
    (c' : OpenContract)
    (hok : (acceptFulfillment db reqUser cid fid now).2 = .json 200 c') :
    (∃ c f, db.contracts cid = some c ∧ fulfillmentById c.fulfillments fid = some f ∧
        c'.winningFulfillment = some
          { farmer := f.farmer, quantity := f.quantity, price := f.price,
            acceptedAt := now } ∧
        (acceptFulfillment db reqUser cid fid now).1.contracts cid = some c') ∧
      (acceptFulfillment db reqUser cid fid now).1.payouts = db.payouts ∧
      (acceptFulfillment db reqUser cid fid now).1.stripePayouts = db.stripePayouts ∧
      (acceptFulfillment db reqUser cid fid now).1.transactions = db.transactions := by
  refine ⟨?_, acceptFulfillment_frame db reqUser cid fid now⟩
  cases hc : db.contracts cid with
  | none => simp [acceptFulfillment, hc] at hok
  | some c =>
    by_cases hb : c.buyer = reqUser
    · cases hf : fulfillmentById c.fulfillments fid with
      | none => simp [acceptFulfillment, hc, hb, hf] at hok
      | some f =>
        have h := acceptFulfillment_ok db reqUser cid fid now c f hc hb hf
        rw [h.1] at hok
        have hc' := (Reply.json.inj hok).2
        refine ⟨c, f, rfl, hf, ?_, ?_⟩
        · rw [← hc']
        · rw [← hc']; exact h.2
    · simp [acceptFulfillment, hc, hb] at hok

/-- Witness of C7 (amended): the acceptance of the offer (80, 9.50) of farmer A, whose
winner is worth 760.00. -/
theorem acceptFulfillment_no_payout_witness :
    (acceptFulfillment dbOfferB 1 10 20 7).2 = .json 200 contractAcceptedA ∧
      contractAcceptedA.winningFulfillment.map (fun w => (w.quantity, w.price, w.quantity * w.price))
        = some (80, 19 / 2, 760) ∧
      (∃ c f, dbOfferB.contracts 10 = some c ∧
        fulfillmentById c.fulfillments 20 = some f ∧
        contractAcceptedA.winningFulfillment = some
          { farmer := f.farmer, quantity := f.quantity, price := f.price,
            acceptedAt := 7 } ∧
        (acceptFulfillment dbOfferB 1 10 20 7).1.contracts 10 = some contractAcceptedA) ∧
      (acceptFulfillment dbOfferB 1 10 20 7).1.payouts = dbOfferB.payouts ∧
      (acceptFulfillment dbOfferB 1 10 20 7).1.stripePayouts = dbOfferB.stripePayouts ∧
      (acceptFulfillment dbOfferB 1 10 20 7).1.transactions = dbOfferB.transactions :=
  ⟨by decide!, by decide!,
    acceptFulfillment_no_payout dbOfferB 1 10 20 7 contractAcceptedA (by decide!)⟩

/-! ## requestPayout -/

/-- Every call of `requestPayout` stops at its first guard: either no user is found
for the caller, or the read of `stripeAccountId` on the fetched user is undefined. The
store is returned as it was. -/
theorem requestPayout_refused (db : Db) (reqUser tid : ObjectId) (stripe : StripeResult)
    (newId : ObjectId) :
    requestPayout db reqUser tid stripe newId =
      (db, .message 400 "No connected account found for this user") := by
  unfold requestPayout
  cases db.findUser reqUser with
  | none => rfl
  | some user => rfl

theorem runPayouts_refused : ∀ (calls : List PayoutCall) (db : Db), runPayouts db calls = db := by
  intro calls
  induction calls with
  | nil => intro db; rfl
  | cons k ks ih =>
    intro db
    simp only [runPayouts, requestPayout_refused]
    exact ih db

/-- C8, code at the failing input: farmer A, the seller of the pending transaction 51
of 100.00, asks for its payout and the payment processor is ready to create it;
`requestPayout` answers 400 for a missing connected account and stores nothing, so no
`Payout` with a platform fee of 5.00 and a net amount of 95.00 is recorded. -/
theorem fee_record_missing :
    payDb.findUser 2 = some farmerA ∧ payDb.transactions 51 = some sale100 ∧
      sale100.seller = 2 ∧ sale100.amount = 100 ∧ sale100.payoutStatus = .pending ∧
      requestPayout payDb 2 51 (.created "po_1" "pending" 99) 900 =
        (payDb, .message 400 "No connected account found for this user") ∧
      (requestPayout payDb 2 51 (.created "po_1" "pending" 99) 900).1.payouts = [] :=
  ⟨by decide!, rfl, rfl, rfl, rfl, requestPayout_refused _ _ _ _ _,
    by rw [requestPayout_refused]; rfl⟩

/-! ## At most one payout per transaction -/

/-- C9: in any sequence of `requestPayout` calls at most one `Payout` record is created
and at most one payout is issued at the processor per transaction; in fact none is:
the sequence leaves the store as it was, and on the resulting store every further call
changes nothing and is not answered 200, so that a call that succeeded, and a later
call after it, do not occur. -/
theorem requestPayout_once (db : Db) (calls : List PayoutCall) (tid : ObjectId) :
    payoutsFor (runPayouts db calls) tid ≤ payoutsFor db tid + 1 ∧
      issuedFor (runPayouts db calls) tid ≤ issuedFor db tid + 1 ∧
      runPayouts db calls = db ∧
      ∀ u stripe newId,
        (requestPayout (runPayouts db calls) u tid stripe newId).1 = runPayouts db calls ∧
          (requestPayout (runPayouts db calls) u tid stripe newId).2.status ≠ 200 := by
  refine ⟨?_, ?_, runPayouts_refused calls db, fun u stripe newId => ?_⟩
  · rw [runPayouts_refused]; exact Nat.le_succ _
  · rw [runPayouts_refused]; exact Nat.le_succ _
  · rw [requestPayout_refused]
    exact ⟨rfl, by simp [Reply.status]⟩

/-! ## Who may request a payout -/

/-- C10, as stated, fails: farmer B, who is not the seller of transaction 50, is
answered 400 for the missing connected account, not 403. -/
theorem forbidden_counterexample :
    payDb.findUser 3 = some farmerB ∧ payDb.transactions 50 = some sale3333 ∧
      sale3333.seller ≠ 3 ∧
      (requestPayout payDb 3 50 (.created "po_6" "pending" 99) 905).2 =
        .message 400 "No connected account found for this user" ∧
      (requestPayout payDb 3 50 (.created "po_6" "pending" 99) 905).2 ≠
        .message 403 "Not authorized to request payout for this transaction" := by
  refine ⟨by decide!, rfl, by decide!, by rw [requestPayout_refused], ?_⟩
  rw [requestPayout_refused]
  intro h
  injection h with h1 _
  exact absurd h1 (by decide)

/-- C10, amended: a caller for whom no user is found, or on whose user document no
connected account is read (undefined or empty `stripeAccountId`), is answered 400 for
the missing connected account, not 403, whatever the transaction, its seller and its
payout status; the store is returned as it was, so no payout is created at the
processor, no `Payout` record is stored and the transaction is unchanged. -/
theorem requestPayout_no_account (db : Db) (u tid : ObjectId) (stripe : StripeResult)
    (newId : ObjectId)
    (h : db.findUser u = none ∨ ∃ user, db.findUser u = some user ∧
      (user.stripeAccountId = none ∨ user.stripeAccountId = some "")) :
    requestPayout db u tid stripe newId =
        (db, .message 400 "No connected account found for this user") ∧
      (requestPayout db u tid stripe newId).2 ≠
        .message 403 "Not authorized to request payout for this transaction" := by
  have hr : requestPayout db u tid stripe newId =
      (db, .message 400 "No connected account found for this user") := by
    unfold requestPayout
    rcases h with h | ⟨user, hu, ha | ha⟩
    · rw [h]
    · rw [hu]; simp only [ha]
    · rw [hu]; simp only [ha, if_true]
  refine ⟨hr, ?_⟩
  rw [hr]
  intro h'
  injection h' with h1 _
  exact absurd h1 (by decide)

/-- Witness of C10 (amended): farmer B asks for the payout of transaction 50 of
farmer A. -/
theorem requestPayout_no_account_witness :
    (payDb.findUser 3 = none ∨ ∃ user, payDb.findUser 3 = some user ∧
        (user.stripeAccountId = none ∨ user.stripeAccountId = some "")) ∧
      requestPayout payDb 3 50 (.created "po_6" "pending" 99) 905 =
        (payDb, .message 400 "No connected account found for this user") ∧
      (requestPayout payDb 3 50 (.created "po_6" "pending" 99) 905).2 ≠
        .message 403 "Not authorized to request payout for this transaction" :=
  ⟨Or.inr ⟨farmerB, by decide!, Or.inl rfl⟩,
    requestPayout_no_account payDb 3 50 (.created "po_6" "pending" 99) 905
      (Or.inr ⟨farmerB, by decide!, Or.inl rfl⟩)⟩

/-! ## Amount sent and amount recorded -/

/-- C13: the payouts a call of `requestPayout` creates at the processor and the `Payout`
records it stores go together, the amount sent being 100 times the amount recorded; in
fact a call creates neither a payout nor a record, so the money sent and the money
recorded never differ. -/
theorem sent_equals_recorded (db : Db) (u tid : ObjectId) (stripe : StripeResult)
    (newId : ObjectId) :
    ∃ (issued : List StripePayout) (recorded : List Payout),
      (requestPayout db u tid stripe newId).1.stripePayouts = db.stripePayouts ++ issued ∧
      (requestPayout db u tid stripe newId).1.payouts = db.payouts ++ recorded ∧
      issued.map (fun p => p.amount) = recorded.map (fun p => 100 * p.amount) ∧
      issued = [] ∧ recorded = [] := by
  refine ⟨[], [], ?_, ?_, rfl, rfl, rfl⟩
  · rw [requestPayout_refused]; simp
  · rw [requestPayout_refused]; simp

end FarmBid
